import Mathlib

/-
Verification of the image-quality-gate pipeline against its specification.

The development shallowly embeds the algorithmic content of the repository:
  * app/services/quality.py      (variance_of_laplacian, brightness, assess)
  * app/services/preprocess.py   (load_and_normalize, to_gray)
  * app/api/routes_quality.py    (the /quality upload handler)
  * app/core/config.py           (Settings field validation)
  * scripts/tune_blur.py         (otsu_threshold, summarize)

Machine floats of the reference implementation are modelled by exact
rationals; 8-bit pixels by integers. Library collaborators (the Pillow
decoder, the Lanczos resampler, the BGR-to-gray projection, the real
log10 and 10-power maps of numpy) are not part of the repository and are
taken as explicit function parameters, so every theorem quantifies over
them where they appear.
-/

/-- Single-channel intensity buffer (the numpy uint8 array `gray`):
width, height, and the pixel map, `px x y` being the value at column x, row y. -/
structure Gray where
  w : ℕ
  h : ℕ
  px : ℕ → ℕ → ℤ

/-- OpenCV borderInterpolate for BORDER_REFLECT_101 (the default border of
cv2.Laplacian): index -1 maps to 1, index n to n-2, and a length-1 axis
always maps to 0, as in the OpenCV implementation. -/
def reflect101 (n : ℕ) (i : ℤ) : ℤ :=
  if n = 1 then 0
  else if i < 0 then -i
  else if (n : ℤ) ≤ i then 2 * ((n : ℤ) - 1) - i
  else i

/-- Pixel access with reflect-101 border handling on both axes. -/
def pxR (g : Gray) (x y : ℤ) : ℤ :=
  g.px (reflect101 g.w x).toNat (reflect101 g.h y).toNat

/-- The response of cv2.Laplacian with the default aperture (ksize=1), i.e.
the 3x3 kernel [[0,1,0],[1,-4,1],[0,1,0]], at pixel (x, y). The CV_64F
output is exact here because the inputs are integers. -/
def lap (g : Gray) (x y : ℕ) : ℤ :=
  pxR g (x : ℤ) ((y : ℤ) - 1) + pxR g (x : ℤ) ((y : ℤ) + 1) +
    pxR g ((x : ℤ) - 1) (y : ℤ) + pxR g ((x : ℤ) + 1) (y : ℤ) -
    4 * pxR g (x : ℤ) (y : ℤ)

/-- numpy ndarray.mean over a list of values: sum divided by length. -/
def npMean (xs : List ℚ) : ℚ := xs.sum / xs.length

/-- numpy ndarray.var with the default ddof=0: the mean of the squared
deviations from the mean (division by N, not N-1). -/
def npVar (xs : List ℚ) : ℚ :=
  (xs.map (fun x => (x - npMean xs) ^ 2)).sum / xs.length

/-- All Laplacian response values of the buffer, row-major. -/
def responses (g : Gray) : List ℚ :=
  (List.range g.h).flatMap (fun y => (List.range g.w).map (fun x => ((lap g x y : ℤ) : ℚ)))

/-- All intensity values of the buffer, row-major. -/
def intensities (g : Gray) : List ℚ :=
  (List.range g.h).flatMap (fun y => (List.range g.w).map (fun x => ((g.px x y : ℤ) : ℚ)))

/-- quality.variance_of_laplacian: float(cv2.Laplacian(gray, cv2.CV_64F).var()). -/
def variance_of_laplacian (g : Gray) : ℚ := npVar (responses g)

/-- quality.brightness: float(gray.mean()). -/
def brightness (g : Gray) : ℚ := npMean (intensities g)

/-- quality.Thresholds: blur_min is a float, the brightness bounds are ints. -/
structure Thresholds where
  blur_min : ℚ
  bright_min : ℤ
  bright_max : ℤ
deriving DecidableEq

/-- The mapping returned by quality.assess. -/
structure Verdict where
  blur_score : ℚ
  brightness : ℚ
  is_ok : Bool
deriving DecidableEq

/-- quality.assess: compute both metrics and the inclusive threshold check
blur_score >= thr.blur_min and thr.bright_min <= bright <= thr.bright_max. -/
def assess (g : Gray) (thr : Thresholds) : Verdict :=
  let blur_score := variance_of_laplacian g
  let bright := brightness g
  let is_ok := decide (thr.blur_min ≤ blur_score) &&
    (decide ((thr.bright_min : ℚ) ≤ bright) && decide (bright ≤ (thr.bright_max : ℚ)))
  ⟨blur_score, bright, is_ok⟩

/-- Spec-side definition: the population variance of a list of values, the
sum of squared deviations from the arithmetic mean divided by N (not N-1). -/
def popVariance (xs : List ℚ) : ℚ :=
  (xs.map (fun x => (x - xs.sum / xs.length) ^ 2)).sum / xs.length

/-- Spec-side definition: the arithmetic mean of a list of values. -/
def arithmeticMean (xs : List ℚ) : ℚ := xs.sum / xs.length

/-- Helper: a concrete 2x2 uniform buffer of intensity 7, used for witnesses. -/
def gUniform : Gray := ⟨2, 2, fun _ _ => 7⟩

/-- Python int() applied to a nonnegative-or-negative float: truncation
toward zero. -/
def pyInt (q : ℚ) : ℤ := if 0 ≤ q then ⌊q⌋ else -⌊-q⌋

/-- Three-channel 8-bit image buffer with a pixel map. -/
structure RGBImage where
  w : ℕ
  h : ℕ
  px : ℕ → ℕ → ℤ × ℤ × ℤ

/-- cv2.cvtColor(arr, cv2.COLOR_RGB2BGR): swap the first and third channel. -/
def rgb2bgr (img : RGBImage) : RGBImage :=
  ⟨img.w, img.h, fun x y => ((img.px x y).2.2, (img.px x y).2.1, (img.px x y).1)⟩

/-- The scale factor of preprocess.load_and_normalize line 28:
scale = min(1.0, max_dim / max(w, h)). -/
def normScale (w h maxDim : ℕ) : ℚ := min 1 ((maxDim : ℚ) / ((max w h : ℕ) : ℚ))

/-- The output dimensions of preprocess.load_and_normalize lines 27-30:
when scale < 1 the image is resized to (int(w*scale), int(h*scale)) —
Python int(), i.e. truncation — otherwise the dimensions are unchanged. -/
def normalizedDims (w h maxDim : ℕ) : ℕ × ℕ :=
  if normScale w h maxDim < 1 then
    ((pyInt ((w : ℚ) * normScale w h maxDim)).toNat,
      (pyInt ((h : ℚ) * normScale w h maxDim)).toNat)
  else (w, h)

/-- preprocess.load_and_normalize. The Pillow decoding step (Image.open,
exif_transpose, convert RGB) and the Lanczos resampler are library
collaborators, passed as explicit pure functions; the resampler receives
the target size computed on lines 28-30 and can fail (Pillow resize
raises ValueError when a target dimension is 0), in which case the whole
call fails, as the uncaught Python exception propagates to the caller.
The final BGR conversion and the returned (buffer, width, height) triple
follow lines 32-34. -/
def load_and_normalize (decode : List ℕ → Option RGBImage)
    (resample : RGBImage → ℕ → ℕ → Option RGBImage)
    (image_bytes : List ℕ) (max_dim : ℕ) : Option (RGBImage × ℕ × ℕ) :=
  match decode image_bytes with
  | none => none
  | some img0 =>
    let dims := normalizedDims img0.w img0.h max_dim
    match (if normScale img0.w img0.h max_dim < 1
      then resample img0 dims.1 dims.2 else some img0) with
    | none => none
    | some img => some (rgb2bgr img, img.w, img.h)

/-- Helper: a decoder stand-in producing a fixed-size black image. -/
def constImage (w h : ℕ) : RGBImage := ⟨w, h, fun _ _ => (0, 0, 0)⟩

/-- Helper: a decoder that accepts any byte string as a w x h image. -/
def decodeConst (w h : ℕ) : List ℕ → Option RGBImage :=
  fun _ => some (constImage w h)

/-- Helper: a resampler with the Pillow resize behavior: it fails when
either requested target dimension is 0 (Pillow raises ValueError,
height and width must be positive), and otherwise returns an image of
exactly the requested target size. -/
def resamplePillow : RGBImage → ℕ → ℕ → Option RGBImage :=
  fun img a b => if a = 0 ∨ b = 0 then none else some ⟨a, b, img.px⟩

/-- The results of a sequence of normalize calls: the module holds no
mutable state, so a run is the independent image of each call. -/
def normalizeTrace (decode : List ℕ → Option RGBImage)
    (resample : RGBImage → ℕ → ℕ → Option RGBImage)
    (calls : List (List ℕ × ℕ)) : List (Option (RGBImage × ℕ × ℕ)) :=
  calls.map (fun c => load_and_normalize decode resample c.1 c.2)

/-- config.Settings: the validated configuration fields relevant to the
pipeline (blur_min is a float, the others ints). -/
structure Settings where
  blur_min : ℚ
  bright_min : ℤ
  bright_max : ℤ
  resize_max_dim : ℤ
  max_upload_mb : ℤ
deriving DecidableEq

/-- The pydantic Field constraints of config.Settings lines 8-12:
blur_min >= 0, bright_min in [0,255], bright_max in [0,255],
resize_max_dim >= 256, max_upload_mb in [1,25]. There is no cross-field
constraint in the model. -/
def settingsValid (blur_min : ℚ) (bright_min bright_max resize_max_dim max_upload_mb : ℤ) :
    Bool :=
  decide (0 ≤ blur_min) && decide (0 ≤ bright_min) && decide (bright_min ≤ 255) &&
    decide (0 ≤ bright_max) && decide (bright_max ≤ 255) &&
    decide (256 ≤ resize_max_dim) &&
    decide (1 ≤ max_upload_mb) && decide (max_upload_mb ≤ 25)

/-- Constructing a Settings value: pydantic validation either accepts the
field values and builds the object, or raises a ValidationError (None). -/
def mkSettings (blur_min : ℚ) (bright_min bright_max resize_max_dim max_upload_mb : ℤ) :
    Option Settings :=
  if settingsValid blur_min bright_min bright_max resize_max_dim max_upload_mb then
    some ⟨blur_min, bright_min, bright_max, resize_max_dim, max_upload_mb⟩
  else none

/-- An upload as FastAPI hands it to the route: the declared content type
(None when the header is absent) and the request body bytes. -/
structure UploadFile where
  content_type : Option String
  content : List ℕ

/-- The observable outcome of the /quality route: an HTTPException carrying
a status code and detail, or the 200 QualityResponse payload. -/
inductive QualityResult where
  | error (status : ℤ) (detail : String)
  | response (blur_score : ℚ) (bright : ℚ) (is_ok : Bool)
      (width : ℕ) (height : ℕ) (thresholds : Thresholds)
deriving DecidableEq

/-- routes_quality line 17: the upload passes the content-type allowlist
when a content type is present and starts with image/ (Python
str.startswith, here on the character lists of the strings). -/
def ctAllowed : Option String → Bool
  | none => false
  | some ct => List.isPrefixOf "image/".data ct.data

/-- routes_quality.quality: reject a non-image content type with 415, then
an oversized body (more than max_upload_mb * 1024 * 1024 bytes) with 413,
then decode; a decoder failure is a 400, otherwise the verdict of assess
on the grayscale projection is returned together with the emitted
dimensions and the thresholds in use. The decoder, resampler and the
BGR-to-gray projection (cv2.cvtColor) are library collaborators passed as
pure functions; a decode or resample failure is the except-branch 400. -/
def quality (s : Settings) (decode : List ℕ → Option RGBImage)
    (resample : RGBImage → ℕ → ℕ → Option RGBImage) (toGray : RGBImage → Gray)
    (file : UploadFile) : QualityResult :=
  if ctAllowed file.content_type then
    if (file.content.length : ℤ) > s.max_upload_mb * 1024 * 1024 then
      .error 413 "File too large"
    else
      match load_and_normalize decode resample file.content s.resize_max_dim.toNat with
      | none => .error 400 "Invalid image data"
      | some (bgr, w, h) =>
        let thr : Thresholds := ⟨s.blur_min, s.bright_min, s.bright_max⟩
        let res := assess (toGray bgr) thr
        .response res.blur_score res.brightness res.is_ok w h thr
  else .error 415 "Unsupported media type"

/-- Helper: a decoder that rejects every byte string. -/
def decodeNone : List ℕ → Option RGBImage := fun _ => none

/-- Helper: a concrete grayscale projection stand-in. -/
def toGrayZero : RGBImage → Gray := fun i => ⟨i.w, i.h, fun _ _ => 0⟩

/-- Helper: concrete settings for the route witnesses; max_upload_mb = 0
makes any nonempty body oversized. -/
def sTiny : Settings := ⟨140, 20, 235, 1600, 0⟩

/-- numpy ndarray.min on a nonempty array (0 on empty, unused). -/
def listMin : List ℚ → ℚ
  | [] => 0
  | x :: xs => xs.foldl min x

/-- numpy ndarray.max on a nonempty array (0 on empty, unused). -/
def listMax : List ℚ → ℚ
  | [] => 0
  | x :: xs => xs.foldl max x

/-- np.histogram lower range edge: the data minimum, shifted by -1/2 when
all data points coincide (numpy expands a degenerate range (a, a) to
(a-0.5, a+0.5)). -/
def otsuLo (v : List ℚ) : ℚ :=
  if listMin v = listMax v then listMin v - 1 / 2 else listMin v

/-- np.histogram upper range edge, with the same degenerate-range shift. -/
def otsuHi (v : List ℚ) : ℚ :=
  if listMin v = listMax v then listMax v + 1 / 2 else listMax v

/-- np.histogram bin edges: bins+1 equally spaced points from lo to hi. -/
def otsuEdge (v : List ℚ) (bins i : ℕ) : ℚ :=
  otsuLo v + (otsuHi v - otsuLo v) * i / bins

/-- np.histogram count of bin k: values in [edge k, edge (k+1)), the last
bin also including its right edge (all data lie at or below it). -/
def otsuHist (v : List ℚ) (bins k : ℕ) : ℕ :=
  (v.filter (fun x => decide (otsuEdge v bins k ≤ x) &&
    (decide (k + 1 = bins) || decide (x < otsuEdge v bins (k + 1))))).length

/-- hist.sum() of tune_blur line 73. -/
def otsuN (v : List ℚ) (bins : ℕ) : ℚ :=
  ((List.range bins).map (fun k => (otsuHist v bins k : ℚ))).sum

/-- prob of tune_blur line 73: hist / hist.sum(). -/
def otsuProb (v : List ℚ) (bins k : ℕ) : ℚ := (otsuHist v bins k : ℚ) / otsuN v bins

/-- centers of tune_blur line 74: midpoints of consecutive edges. -/
def otsuCenter (v : List ℚ) (bins k : ℕ) : ℚ :=
  (otsuEdge v bins k + otsuEdge v bins (k + 1)) / 2

/-- np.cumsum of a sequence, at index k. -/
def cumsum (f : ℕ → ℚ) (k : ℕ) : ℚ := ((List.range (k + 1)).map f).sum

/-- omega of tune_blur line 75: cumulative probability mass. -/
def otsuOmega (v : List ℚ) (bins k : ℕ) : ℚ := cumsum (otsuProb v bins) k

/-- mu of tune_blur line 76: cumulative probability-weighted centers. -/
def otsuMu (v : List ℚ) (bins k : ℕ) : ℚ :=
  cumsum (fun i => otsuProb v bins i * otsuCenter v bins i) k

/-- mu_t of tune_blur line 77: the last cumulative value. -/
def otsuMuT (v : List ℚ) (bins : ℕ) : ℚ := otsuMu v bins (bins - 1)

/-- sigma_b2 of tune_blur line 78: the inter-class variance at split k,
with the denominator clipped below at 1e-12. -/
def otsuSigma (v : List ℚ) (bins k : ℕ) : ℚ :=
  (otsuMuT v bins * otsuOmega v bins k - otsuMu v bins k) ^ 2 /
    max (otsuOmega v bins k * (1 - otsuOmega v bins k)) (1 / 1000000000000)

/-- np.nanargmax over a list without NaNs: the first index attaining the
maximum (0 on the empty list, unused). -/
def nanargmax (l : List ℚ) : ℕ :=
  match l.maximum with
  | none => 0
  | some m => l.indexOf m

/-- tune_blur lines 72-80 on already-transformed data: histogram, Otsu
inter-class variance, argmax, and the midpoint of the selected bin. -/
def otsuCore (v : List ℚ) (bins : ℕ) : ℚ :=
  let k := nanargmax ((List.range bins).map (otsuSigma v bins))
  (otsuEdge v bins k + otsuEdge v bins (k + 1)) / 2

/-- tune_blur.otsu_threshold: keep the positive values; with fewer than 3
of them return their mean (0 when none); otherwise apply the log10 map
when requested, run the histogram Otsu selection, and map the chosen
midpoint back through 10**. The transcendental maps log10 and 10** are
numpy collaborators, passed as explicit pure functions. -/
def otsu_threshold (log10 exp10 : ℚ → ℚ) (values : List ℚ) (bins : ℕ)
    (useLog : Bool) : ℚ :=
  let v := values.filter (fun x => decide (0 < x))
  if v.length < 3 then (if v.length = 0 then 0 else npMean v)
  else
    let vt := if useLog then v.map log10 else v
    let thr := otsuCore vt bins
    if useLog then exp10 thr else thr

/-- tune_blur.summarize line 113: the recommended blur threshold is
otsu_threshold(blur, bins=128, log=True). -/
def suggested_blur_min (log10 exp10 : ℚ → ℚ) (blurScores : List ℚ) : ℚ :=
  otsu_threshold log10 exp10 blurScores 128 true

/-- Helper: the reflect-101 index stays inside [0, n) for the offsets the
3x3 Laplacian kernel can produce. -/
theorem reflect101_bounds (n : ℕ) (i : ℤ) (hn : 0 < n) (h1 : -1 ≤ i) (h2 : i ≤ n) :
    0 ≤ reflect101 n i ∧ reflect101 n i < n := by
  unfold reflect101
  by_cases hn1 : n = 1
  · simp [hn1]
  · have hn2 : 2 ≤ n := by omega
    by_cases hi0 : i < 0
    · simp only [hn1, if_false, hi0, if_true]
      omega
    · by_cases hin : (n : ℤ) ≤ i
      · simp only [hn1, if_false, hi0, hin, if_true]
        omega
      · simp only [hn1, if_false, hi0, hin]
        omega

/-- Helper: on a uniform buffer every border-reflected read returns the
uniform value. -/
theorem pxR_uniform (g : Gray) (v : ℤ) (hw : 0 < g.w) (hh : 0 < g.h)
    (hu : ∀ x y, x < g.w → y < g.h → g.px x y = v)
    (x y : ℤ) (hx1 : -1 ≤ x) (hx2 : x ≤ g.w) (hy1 : -1 ≤ y) (hy2 : y ≤ g.h) :
    pxR g x y = v := by
  obtain ⟨hx0, hxlt⟩ := reflect101_bounds g.w x hw hx1 hx2
  obtain ⟨hy0, hylt⟩ := reflect101_bounds g.h y hh hy1 hy2
  unfold pxR
  apply hu <;> omega

/-- Helper: the Laplacian of a uniform buffer vanishes at every pixel. -/
theorem lap_uniform (g : Gray) (v : ℤ) (hw : 0 < g.w) (hh : 0 < g.h)
    (hu : ∀ x y, x < g.w → y < g.h → g.px x y = v)
    (x y : ℕ) (hx : x < g.w) (hy : y < g.h) :
    lap g x y = 0 := by
  unfold lap
  rw [pxR_uniform g v hw hh hu _ _ (by omega) (by omega) (by omega) (by omega),
    pxR_uniform g v hw hh hu _ _ (by omega) (by omega) (by omega) (by omega),
    pxR_uniform g v hw hh hu _ _ (by omega) (by omega) (by omega) (by omega),
    pxR_uniform g v hw hh hu _ _ (by omega) (by omega) (by omega) (by omega),
    pxR_uniform g v hw hh hu _ _ (by omega) (by omega) (by omega) (by omega)]
  ring

/-- Helper: numpy variance is nonnegative. -/
theorem npVar_nonneg (xs : List ℚ) : 0 ≤ npVar xs := by
  unfold npVar
  apply div_nonneg
  · apply List.sum_nonneg
    intro q hq
    simp only [List.mem_map] at hq
    obtain ⟨x, _, rfl⟩ := hq
    positivity
  · positivity

/-- Helper: numpy variance of an all-zero list is zero. -/
theorem npVar_of_all_zero (xs : List ℚ) (h : ∀ x ∈ xs, x = 0) : npVar xs = 0 := by
  have hs : xs.sum = 0 := List.sum_eq_zero h
  have hz : ∀ q ∈ xs.map (fun x => (x - npMean xs) ^ 2), q = 0 := by
    intro q hq
    simp only [List.mem_map] at hq
    obtain ⟨x, hx, rfl⟩ := hq
    rw [h x hx]
    simp [npMean, hs]
  unfold npVar
  rw [List.sum_eq_zero hz, zero_div]

/-- Helper: the flattened intensity list has w*h entries. -/
theorem intensities_length (g : Gray) : (intensities g).length = g.h * g.w := by
  unfold intensities
  simp only [List.length_flatMap, Function.comp_def, List.length_map, List.length_range,
    List.map_const', List.sum_const_nat]

/-- Helper: membership in the flattened intensity list. -/
theorem mem_intensities (g : Gray) (q : ℚ) (hq : q ∈ intensities g) :
    ∃ x y, x < g.w ∧ y < g.h ∧ q = ((g.px x y : ℤ) : ℚ) := by
  unfold intensities at hq
  simp only [List.mem_flatMap, List.mem_map, List.mem_range] at hq
  obtain ⟨y, hy, x, hx, rfl⟩ := hq
  exact ⟨x, y, hx, hy, rfl⟩

/-- C1: the verdict returned by assess has is_ok true if and only if
blur_score >= thresholds.blur_min and
thresholds.bright_min <= brightness <= thresholds.bright_max, all bounds
inclusive (equality at any bound passes, since the comparisons are <=). -/
theorem assess_is_ok_iff (g : Gray) (thr : Thresholds) :
    (assess g thr).is_ok = true ↔
      thr.blur_min ≤ (assess g thr).blur_score ∧
      ((thr.bright_min : ℚ) ≤ (assess g thr).brightness ∧
        (assess g thr).brightness ≤ (thr.bright_max : ℚ)) := by
  simp [assess]

/-- C2: the blur score equals the population variance (division by N) of
the Laplacian response values; it is nonnegative for every buffer, and a
uniform buffer scores exactly 0. -/
theorem variance_of_laplacian_correct (g : Gray) (hw : 0 < g.w) (hh : 0 < g.h) :
    variance_of_laplacian g = popVariance (responses g) ∧
    0 ≤ variance_of_laplacian g ∧
    ∀ v : ℤ, (∀ x y, x < g.w → y < g.h → g.px x y = v) → variance_of_laplacian g = 0 := by
  refine ⟨rfl, npVar_nonneg _, ?_⟩
  intro v hu
  apply npVar_of_all_zero
  intro q hq
  unfold responses at hq
  simp only [List.mem_flatMap, List.mem_map, List.mem_range] at hq
  obtain ⟨y, hy, x, hx, rfl⟩ := hq
  rw [lap_uniform g v hw hh hu x y hx hy]
  norm_num

/-- Witness for C2 at the concrete uniform 2x2 buffer. -/
theorem variance_of_laplacian_correct_witness :
    variance_of_laplacian gUniform = popVariance (responses gUniform) ∧
    0 ≤ variance_of_laplacian gUniform ∧
    ∀ v : ℤ, (∀ x y, x < gUniform.w → y < gUniform.h → gUniform.px x y = v) →
      variance_of_laplacian gUniform = 0 :=
  variance_of_laplacian_correct gUniform (by decide) (by decide)

/-- C3: brightness equals the arithmetic mean of the intensities, lies in
[0, 255] for an 8-bit buffer, and equals v on a buffer uniformly filled
with v. -/
theorem brightness_correct (g : Gray) (hw : 0 < g.w) (hh : 0 < g.h)
    (hb : ∀ x y, x < g.w → y < g.h → 0 ≤ g.px x y ∧ g.px x y ≤ 255) :
    brightness g = arithmeticMean (intensities g) ∧
    0 ≤ brightness g ∧ brightness g ≤ 255 ∧
    ∀ v : ℤ, (∀ x y, x < g.w → y < g.h → g.px x y = v) → brightness g = (v : ℚ) := by
  have hlen : (intensities g).length = g.h * g.w := intensities_length g
  have hlenpos : 0 < ((intensities g).length : ℚ) := by
    rw [hlen]
    exact_mod_cast Nat.mul_pos hh hw
  refine ⟨rfl, ?_, ?_, ?_⟩
  · unfold brightness npMean
    apply div_nonneg
    · apply List.sum_nonneg
      intro q hq
      obtain ⟨x, y, hx, hy, rfl⟩ := mem_intensities g q hq
      exact_mod_cast (hb x y hx hy).1
    · positivity
  · unfold brightness npMean
    rw [div_le_iff₀ hlenpos]
    have hle : ∀ x ∈ intensities g, x ≤ (255 : ℚ) := by
      intro x hx
      obtain ⟨a, b, ha, hb2, rfl⟩ := mem_intensities g x hx
      exact_mod_cast (hb a b ha hb2).2
    calc (intensities g).sum ≤ (intensities g).length • (255 : ℚ) :=
          List.sum_le_card_nsmul _ _ hle
      _ = 255 * (intensities g).length := by rw [nsmul_eq_mul]; ring
  · intro v hu
    have hv : ∀ x ∈ intensities g, x = (v : ℚ) := by
      intro x hx
      obtain ⟨a, b, ha, hb2, rfl⟩ := mem_intensities g x hx
      rw [hu a b ha hb2]
    have h1 := List.sum_le_card_nsmul (intensities g) (v : ℚ)
      (fun x hx => le_of_eq (hv x hx))
    have h2 := List.card_nsmul_le_sum (intensities g) (v : ℚ)
      (fun x hx => ge_of_eq (hv x hx))
    have hsum : (intensities g).sum = (intensities g).length • (v : ℚ) :=
      le_antisymm h1 h2
    unfold brightness npMean
    rw [hsum, nsmul_eq_mul, mul_div_cancel_left₀ _ (ne_of_gt hlenpos)]

/-- Witness for C3 at the concrete uniform 2x2 buffer. -/
theorem brightness_correct_witness :
    brightness gUniform = arithmeticMean (intensities gUniform) ∧
    0 ≤ brightness gUniform ∧ brightness gUniform ≤ 255 ∧
    ∀ v : ℤ, (∀ x y, x < gUniform.w → y < gUniform.h → gUniform.px x y = v) →
      brightness gUniform = (v : ℚ) :=
  brightness_correct gUniform (by decide) (by decide)
    (fun _ _ _ _ => ⟨(by decide : (0:ℤ) ≤ 7), (by decide : (7:ℤ) ≤ 255)⟩)

/-- Helper: the scale factor is strictly below 1 exactly when the longer
side exceeds max_dim. -/
theorem normScale_lt_one_iff (w h maxDim : ℕ) (hw : 0 < w) :
    normScale w h maxDim < 1 ↔ maxDim < max w h := by
  have hM : (0 : ℚ) < ((max w h : ℕ) : ℚ) := by
    exact_mod_cast lt_of_lt_of_le hw (le_max_left w h)
  unfold normScale
  rw [min_lt_iff]
  constructor
  · intro hc
    rcases hc with hc | hc
    · exact absurd hc (lt_irrefl 1)
    · rw [div_lt_one hM] at hc
      exact_mod_cast hc
  · intro hc
    right
    rw [div_lt_one hM]
    exact_mod_cast hc

/-- Helper: the scale factor is nonnegative. -/
theorem normScale_nonneg (w h maxDim : ℕ) : 0 ≤ normScale w h maxDim := by
  unfold normScale
  rw [le_min_iff]
  constructor
  · norm_num
  · positivity

/-- Helper: the scale factor is at most 1. -/
theorem normScale_le_one (w h maxDim : ℕ) : normScale w h maxDim ≤ 1 :=
  min_le_left _ _

/-- C4 counterexample: for a 1000x999 input with max_dim = 500 the scale is
1/2 and the code emits height int(999 * 0.5) = 499, while rounding as the
claim states would give round(999 * 0.5) = 500. -/
theorem normalizedDims_truncates_not_rounds :
    normScale 1000 999 500 < 1 ∧
    normalizedDims 1000 999 500 = (500, 499) ∧
    round ((999 : ℚ) * normScale 1000 999 500) = 500 ∧ (499 : ℕ) ≠ 500 := by
  have hs : normScale 1000 999 500 = 1 / 2 := by
    unfold normScale
    norm_num
  refine ⟨by rw [hs]; norm_num, ?_, by rw [hs]; norm_num [round_eq], by decide⟩
  unfold normalizedDims pyInt
  rw [hs]
  norm_num
  exact ⟨rfl, rfl⟩

/-- C4 amended: scale = min(1, max_dim / max(w, h)); when scale < 1 the
output dimensions are the truncations (floors, since the products are
nonnegative) of w*scale and h*scale, and when scale = 1 they are unchanged;
scale < 1 holds exactly when max(w, h) exceeds max_dim. -/
theorem normalizedDims_correct (w h maxDim : ℕ) (hw : 0 < w) (hh : 0 < h) :
    (normScale w h maxDim < 1 ↔ maxDim < max w h) ∧
    (normScale w h maxDim < 1 →
      normalizedDims w h maxDim
        = ((⌊(w : ℚ) * normScale w h maxDim⌋).toNat,
            (⌊(h : ℚ) * normScale w h maxDim⌋).toNat)) ∧
    (normScale w h maxDim = 1 → normalizedDims w h maxDim = (w, h)) := by
  refine ⟨normScale_lt_one_iff w h maxDim hw, ?_, ?_⟩
  · intro hlt
    unfold normalizedDims
    rw [if_pos hlt]
    have hwq : (0 : ℚ) ≤ (w : ℚ) * normScale w h maxDim :=
      mul_nonneg (by positivity) (normScale_nonneg w h maxDim)
    have hhq : (0 : ℚ) ≤ (h : ℚ) * normScale w h maxDim :=
      mul_nonneg (by positivity) (normScale_nonneg w h maxDim)
    unfold pyInt
    rw [if_pos hwq, if_pos hhq]
  · intro heq
    unfold normalizedDims
    rw [if_neg (by rw [heq]; exact lt_irrefl 1)]

/-- Witness for C4 amended at the counterexample input 1000x999, max_dim 500. -/
theorem normalizedDims_correct_witness :
    (normScale 1000 999 500 < 1 ↔ 500 < max 1000 999) ∧
    (normScale 1000 999 500 < 1 →
      normalizedDims 1000 999 500
        = ((⌊(1000 : ℚ) * normScale 1000 999 500⌋).toNat,
            (⌊(999 : ℚ) * normScale 1000 999 500⌋).toNat)) ∧
    (normScale 1000 999 500 = 1 → normalizedDims 1000 999 500 = (1000, 999)) :=
  normalizedDims_correct 1000 999 500 (by decide) (by decide)

/-- Helper: the dimensions emitted by a successful load_and_normalize call
are exactly the ones computed by normalizedDims from the decoded size,
given that the resampler honors its target size whenever it succeeds. -/
theorem load_and_normalize_dims (decode : List ℕ → Option RGBImage)
    (resample : RGBImage → ℕ → ℕ → Option RGBImage)
    (hres : ∀ i a b out, resample i a b = some out → out.w = a ∧ out.h = b)
    (bytes : List ℕ) (maxDim : ℕ) (img0 : RGBImage)
    (hdec : decode bytes = some img0)
    (img : RGBImage) (w h : ℕ)
    (hout : load_and_normalize decode resample bytes maxDim = some (img, w, h)) :
    (w, h) = normalizedDims img0.w img0.h maxDim := by
  simp only [load_and_normalize, hdec] at hout
  by_cases hsc : normScale img0.w img0.h maxDim < 1
  · rw [if_pos hsc] at hout
    match hr : resample img0 (normalizedDims img0.w img0.h maxDim).1
        (normalizedDims img0.w img0.h maxDim).2 with
    | none =>
      rw [hr] at hout
      simp at hout
    | some out =>
      rw [hr] at hout
      simp only [Option.some.injEq, Prod.mk.injEq] at hout
      obtain ⟨-, hw', hh'⟩ := hout
      rw [← hw', ← hh', (hres _ _ _ _ hr).1, (hres _ _ _ _ hr).2]
  · rw [if_neg hsc] at hout
    simp only [Option.some.injEq, Prod.mk.injEq] at hout
    obtain ⟨-, hw', hh'⟩ := hout
    unfold normalizedDims
    rw [if_neg hsc, ← hw', ← hh']

/-- Helper: the computed dimensions never exceed the originals, their longer
side never exceeds max_dim, and when the original already fits they are
returned unchanged. -/
theorem normalizedDims_le (w h maxDim : ℕ) (hw : 0 < w) (hh : 0 < h) :
    (normalizedDims w h maxDim).1 ≤ w ∧ (normalizedDims w h maxDim).2 ≤ h ∧
    max (normalizedDims w h maxDim).1 (normalizedDims w h maxDim).2 ≤ maxDim ∧
    (max w h ≤ maxDim → normalizedDims w h maxDim = (w, h)) := by
  have hM : (0 : ℚ) < ((max w h : ℕ) : ℚ) := by
    exact_mod_cast lt_of_lt_of_le hw (le_max_left w h)
  by_cases hsc : normScale w h maxDim < 1
  · have hx1 : (maxDim : ℚ) / ((max w h : ℕ) : ℚ) < 1 := by
      rcases min_lt_iff.mp hsc with hc | hc
      · exact absurd hc (lt_irrefl 1)
      · exact hc
    have hxeq : normScale w h maxDim = (maxDim : ℚ) / ((max w h : ℕ) : ℚ) :=
      min_eq_right (le_of_lt hx1)
    have hbnd : ∀ n : ℕ, n ≤ max w h →
        (pyInt ((n : ℚ) * normScale w h maxDim)).toNat ≤ maxDim ∧
        (pyInt ((n : ℚ) * normScale w h maxDim)).toNat ≤ n := by
      intro n hn
      have hnn : (0 : ℚ) ≤ (n : ℚ) * normScale w h maxDim :=
        mul_nonneg (by positivity) (normScale_nonneg _ _ _)
      have hple : (n : ℚ) * normScale w h maxDim ≤ (maxDim : ℚ) := by
        rw [hxeq]
        calc (n : ℚ) * ((maxDim : ℚ) / ((max w h : ℕ) : ℚ))
            ≤ ((max w h : ℕ) : ℚ) * ((maxDim : ℚ) / ((max w h : ℕ) : ℚ)) := by
              apply mul_le_mul_of_nonneg_right _ (by positivity)
              exact_mod_cast hn
          _ = (maxDim : ℚ) := mul_div_cancel₀ _ (ne_of_gt hM)
      have hple2 : (n : ℚ) * normScale w h maxDim ≤ (n : ℚ) :=
        calc (n : ℚ) * normScale w h maxDim
            ≤ (n : ℚ) * 1 :=
              mul_le_mul_of_nonneg_left (normScale_le_one _ _ _) (by positivity)
          _ = (n : ℚ) := mul_one _
      unfold pyInt
      rw [if_pos hnn]
      constructor
      · rw [Int.toNat_le]
        calc ⌊(n : ℚ) * normScale w h maxDim⌋ ≤ ⌊(maxDim : ℚ)⌋ :=
              Int.floor_le_floor hple
          _ = (maxDim : ℤ) := Int.floor_natCast maxDim
      · rw [Int.toNat_le]
        calc ⌊(n : ℚ) * normScale w h maxDim⌋ ≤ ⌊(n : ℚ)⌋ :=
              Int.floor_le_floor hple2
          _ = (n : ℤ) := Int.floor_natCast n
    obtain ⟨hwm, hww⟩ := hbnd w (le_max_left w h)
    obtain ⟨hhm, hhh⟩ := hbnd h (le_max_right w h)
    unfold normalizedDims
    rw [if_pos hsc]
    refine ⟨hww, hhh, max_le hwm hhm, ?_⟩
    intro hmx
    exact absurd hmx (not_le.mpr ((normScale_lt_one_iff w h maxDim hw).mp hsc))
  · unfold normalizedDims
    rw [if_neg hsc]
    have hge : (1 : ℚ) ≤ (maxDim : ℚ) / ((max w h : ℕ) : ℚ) := by
      by_contra hc
      push_neg at hc
      exact hsc (min_lt_iff.mpr (Or.inr hc))
    have hMle : max w h ≤ maxDim := by
      exact_mod_cast (one_le_div hM).mp hge
    exact ⟨le_refl w, le_refl h, by simpa using hMle, fun _ => rfl⟩

/-- Helper: a successful Pillow resize honors its requested target size. -/
theorem resamplePillow_spec (i : RGBImage) (a b : ℕ) (out : RGBImage)
    (h : resamplePillow i a b = some out) : out.w = a ∧ out.h = b := by
  unfold resamplePillow at h
  by_cases hc : a = 0 ∨ b = 0
  · rw [if_pos hc] at h
    cases h
  · rw [if_neg hc] at h
    obtain rfl : (⟨a, b, i.px⟩ : RGBImage) = out := by injection h
    exact ⟨rfl, rfl⟩

/-- Helper: Pillow resize fails on a zero target dimension. -/
theorem resamplePillow_zero (i : RGBImage) (a b : ℕ) (hc : a = 0 ∨ b = 0) :
    resamplePillow i a b = none := by
  unfold resamplePillow
  rw [if_pos hc]

/-- C5: for every valid decoded image (positive dimensions) and max_dim,
whenever normalization returns, the emitted width and height are positive
integers whose longer side is at most max_dim, neither dimension ever
increases, and when the original already fits inside max_dim the
dimensions are returned unchanged. The resampler hypotheses are the
Pillow resize contract: it fails (ValueError) on a zero target dimension
and otherwise returns exactly the requested size — so a zero dimension is
never emitted: the call raises instead, and the route answers 400. -/
theorem load_and_normalize_dims_bounds (decode : List ℕ → Option RGBImage)
    (resample : RGBImage → ℕ → ℕ → Option RGBImage)
    (hres : ∀ i a b out, resample i a b = some out → out.w = a ∧ out.h = b)
    (hzero : ∀ i a b, a = 0 ∨ b = 0 → resample i a b = none)
    (bytes : List ℕ) (maxDim : ℕ) (img0 : RGBImage)
    (hdec : decode bytes = some img0) (hw : 0 < img0.w) (hh : 0 < img0.h)
    (img : RGBImage) (w h : ℕ)
    (hout : load_and_normalize decode resample bytes maxDim = some (img, w, h)) :
    0 < w ∧ 0 < h ∧ max w h ≤ maxDim ∧ w ≤ img0.w ∧ h ≤ img0.h ∧
    (max img0.w img0.h ≤ maxDim → (w, h) = (img0.w, img0.h)) := by
  have hdim := load_and_normalize_dims decode resample hres bytes maxDim img0 hdec
    img w h hout
  obtain ⟨h1, h2, h3, h4⟩ := normalizedDims_le img0.w img0.h maxDim hw hh
  have hwe : w = (normalizedDims img0.w img0.h maxDim).1 := congrArg Prod.fst hdim
  have hhe : h = (normalizedDims img0.w img0.h maxDim).2 := congrArg Prod.snd hdim
  have hpos : 0 < w ∧ 0 < h := by
    by_cases hsc : normScale img0.w img0.h maxDim < 1
    · simp only [load_and_normalize, hdec] at hout
      rw [if_pos hsc] at hout
      match hr : resample img0 (normalizedDims img0.w img0.h maxDim).1
          (normalizedDims img0.w img0.h maxDim).2 with
      | none =>
        rw [hr] at hout
        simp at hout
      | some out =>
        have hnz : ¬ ((normalizedDims img0.w img0.h maxDim).1 = 0 ∨
            (normalizedDims img0.w img0.h maxDim).2 = 0) := by
          intro hc
          rw [hzero img0 _ _ hc] at hr
          cases hr
        push_neg at hnz
        rw [hwe, hhe]
        exact ⟨Nat.pos_of_ne_zero hnz.1, Nat.pos_of_ne_zero hnz.2⟩
    · have hnd : normalizedDims img0.w img0.h maxDim = (img0.w, img0.h) := by
        unfold normalizedDims
        rw [if_neg hsc]
      rw [hwe, hhe, hnd]
      exact ⟨hw, hh⟩
  refine ⟨hpos.1, hpos.2, ?_, hwe ▸ h1, hhe ▸ h2, ?_⟩
  · rw [hwe, hhe]
    exact h3
  · intro hmx
    rw [hdim, h4 hmx]

/-- Witness for C5: a 4x3-proportioned 256x192 decoded image under max_dim
256 keeps its dimensions, which are positive and within the cap. -/
theorem load_and_normalize_dims_bounds_witness :
    0 < (256 : ℕ) ∧ 0 < (192 : ℕ) ∧ max 256 192 ≤ (256 : ℕ) ∧
    (256 : ℕ) ≤ 256 ∧ (192 : ℕ) ≤ 192 ∧
    (max 256 192 ≤ (256 : ℕ) → ((256 : ℕ), (192 : ℕ)) = (256, 192)) := by
  have hsc : ¬ normScale 256 192 256 < 1 := by
    unfold normScale
    norm_num
  have hout : load_and_normalize (decodeConst 256 192) resamplePillow [] 256
      = some (rgb2bgr (constImage 256 192), 256, 192) := by
    simp only [load_and_normalize, decodeConst, constImage]
    rw [if_neg hsc]
  exact load_and_normalize_dims_bounds (decodeConst 256 192) resamplePillow
    resamplePillow_spec resamplePillow_zero [] 256 (constImage 256 192) rfl
    (by decide) (by decide)
    (rgb2bgr (constImage 256 192)) 256 192 hout

/-- C8: normalization is deterministic and stateless. In any two runs, if
the i-th call of the first run receives byte-for-byte the same input bytes
and the same max_dim as the j-th call of the second run, the two calls
return identical results (bit-identical buffer, width and height),
regardless of the surrounding calls: no state is carried between calls. -/
theorem normalize_deterministic (decode : List ℕ → Option RGBImage)
    (resample : RGBImage → ℕ → ℕ → Option RGBImage)
    (t₁ t₂ : List (List ℕ × ℕ)) (i j : ℕ)
    (hin : t₁[i]? = t₂[j]?) :
    (normalizeTrace decode resample t₁)[i]? = (normalizeTrace decode resample t₂)[j]? := by
  unfold normalizeTrace
  rw [List.getElem?_map, List.getElem?_map, hin]

/-- Witness for C8: the single call of a one-call run and the second call
of a two-call run receive identical inputs and give identical results. -/
theorem normalize_deterministic_witness :
    (normalizeTrace (decodeConst 4 3) resamplePillow [([1, 2], 256)])[0]?
      = (normalizeTrace (decodeConst 4 3) resamplePillow [([9], 64), ([1, 2], 256)])[1]? :=
  normalize_deterministic (decodeConst 4 3) resamplePillow
    [([1, 2], 256)] [([9], 64), ([1, 2], 256)] 0 1 (by decide)

/-- C7 counterexample: bright_min = 200 and bright_max = 100 pass every
per-field constraint, so a Settings value with bright_min > bright_max is
constructed: the claimed bright_min <= bright_max validation does not
exist. -/
theorem mkSettings_no_cross_field_check :
    mkSettings 140 200 100 1600 6 = some ⟨140, 200, 100, 1600, 6⟩ ∧
    ¬ (200 : ℤ) ≤ 100 := by
  decide

/-- C7 amended: startup validation enforces blur_min >= 0, bright_min and
bright_max each in [0,255], and resize_max_dim >= 256, and a Settings value
violating any of those per-field constraints is never constructed; but the
relation bright_min <= bright_max is not validated. -/
theorem mkSettings_field_ranges (bm : ℚ) (bmin bmax rmd mub : ℤ) (s : Settings)
    (h : mkSettings bm bmin bmax rmd mub = some s) :
    0 ≤ s.blur_min ∧ 0 ≤ s.bright_min ∧ s.bright_min ≤ 255 ∧
    0 ≤ s.bright_max ∧ s.bright_max ≤ 255 ∧ 256 ≤ s.resize_max_dim := by
  unfold mkSettings at h
  by_cases hv : settingsValid bm bmin bmax rmd mub
  · rw [if_pos hv] at h
    unfold settingsValid at hv
    simp only [Bool.and_eq_true, decide_eq_true_eq] at hv
    obtain ⟨⟨⟨⟨⟨⟨⟨h1, h2⟩, h3⟩, h4⟩, h5⟩, h6⟩, h7⟩, h8⟩ := hv
    cases h
    exact ⟨h1, h2, h3, h4, h5, h6⟩
  · rw [if_neg hv] at h
    cases h

/-- Witness for C7 amended at the default configuration values. -/
theorem mkSettings_field_ranges_witness :
    0 ≤ (Settings.mk 140 20 235 1600 6).blur_min ∧
    0 ≤ (Settings.mk 140 20 235 1600 6).bright_min ∧
    (Settings.mk 140 20 235 1600 6).bright_min ≤ 255 ∧
    0 ≤ (Settings.mk 140 20 235 1600 6).bright_max ∧
    (Settings.mk 140 20 235 1600 6).bright_max ≤ 255 ∧
    256 ≤ (Settings.mk 140 20 235 1600 6).resize_max_dim :=
  mkSettings_field_ranges 140 20 235 1600 6 _ (by decide)

/-- C6: a non-image content type is answered 415 and an oversized body 413,
in both cases for every decoder whatsoever — the decoder is never
consulted; bytes the decoder cannot parse are answered 400 and no verdict
response is produced. -/
theorem quality_error_handling (s : Settings) (decode : List ℕ → Option RGBImage)
    (resample : RGBImage → ℕ → ℕ → Option RGBImage) (toGray : RGBImage → Gray)
    (file : UploadFile) :
    (ctAllowed file.content_type = false →
      quality s decode resample toGray file = .error 415 "Unsupported media type") ∧
    (ctAllowed file.content_type = true →
      (file.content.length : ℤ) > s.max_upload_mb * 1024 * 1024 →
      quality s decode resample toGray file = .error 413 "File too large") ∧
    (ctAllowed file.content_type = true →
      ¬ ((file.content.length : ℤ) > s.max_upload_mb * 1024 * 1024) →
      load_and_normalize decode resample file.content s.resize_max_dim.toNat = none →
      quality s decode resample toGray file = .error 400 "Invalid image data" ∧
      ∀ b br ok w h thr,
        quality s decode resample toGray file ≠ .response b br ok w h thr) := by
  refine ⟨?_, ?_, ?_⟩
  · intro hct
    unfold quality
    rw [if_neg (by rw [hct]; exact Bool.false_ne_true)]
  · intro hct hsz
    unfold quality
    rw [if_pos (by rw [hct]), if_pos hsz]
  · intro hct hsz hdec
    unfold quality
    rw [if_pos (by rw [hct]), if_neg hsz, hdec]
    exact ⟨rfl, fun b br ok w h thr hc => QualityResult.noConfusion hc⟩

/-- Witness for C6: the three rejection scenarios at concrete requests. -/
theorem quality_error_handling_witness :
    quality sTiny decodeNone resamplePillow toGrayZero ⟨some "text/plain", []⟩
      = .error 415 "Unsupported media type" ∧
    quality sTiny decodeNone resamplePillow toGrayZero ⟨some "image/png", [7]⟩
      = .error 413 "File too large" ∧
    (quality sTiny decodeNone resamplePillow toGrayZero ⟨some "image/png", []⟩
      = .error 400 "Invalid image data" ∧
      ∀ b br ok w h thr,
        quality sTiny decodeNone resamplePillow toGrayZero ⟨some "image/png", []⟩
          ≠ .response b br ok w h thr) :=
  ⟨(quality_error_handling sTiny decodeNone resamplePillow toGrayZero
      ⟨some "text/plain", []⟩).1 (by decide),
    (quality_error_handling sTiny decodeNone resamplePillow toGrayZero
      ⟨some "image/png", [7]⟩).2.1 (by decide) (by decide),
    (quality_error_handling sTiny decodeNone resamplePillow toGrayZero
      ⟨some "image/png", []⟩).2.2 (by decide) (by decide) rfl⟩

/-- C10: when the content type is not allowed and the body is also
oversized, the response is the 415 unsupported-media-type error, never the
413 too-large error: the content-type check runs first. -/
theorem quality_type_check_first (s : Settings) (decode : List ℕ → Option RGBImage)
    (resample : RGBImage → ℕ → ℕ → Option RGBImage) (toGray : RGBImage → Gray)
    (file : UploadFile)
    (hct : ctAllowed file.content_type = false)
    (hsz : (file.content.length : ℤ) > s.max_upload_mb * 1024 * 1024) :
    quality s decode resample toGray file = .error 415 "Unsupported media type" ∧
    quality s decode resample toGray file ≠ .error 413 "File too large" := by
  have h415 : quality s decode resample toGray file
      = .error 415 "Unsupported media type" := by
    unfold quality
    rw [if_neg (by rw [hct]; exact Bool.false_ne_true)]
  refine ⟨h415, ?_⟩
  rw [h415]
  decide

/-- Witness for C10: a text upload with a nonempty body under sTiny. -/
theorem quality_type_check_first_witness :
    quality sTiny decodeNone resamplePillow toGrayZero ⟨some "text/plain", [7]⟩
      = .error 415 "Unsupported media type" ∧
    quality sTiny decodeNone resamplePillow toGrayZero ⟨some "text/plain", [7]⟩
      ≠ .error 413 "File too large" :=
  quality_type_check_first sTiny decodeNone resamplePillow toGrayZero
    ⟨some "text/plain", [7]⟩ (by decide) (by decide)

/-- Helper: nanargmax of a nonempty list is a valid index. -/
theorem nanargmax_lt_length (l : List ℚ) (hl : l ≠ []) : nanargmax l < l.length := by
  unfold nanargmax
  match hm : l.maximum with
  | none => exact absurd (List.maximum_eq_none.mp hm) hl
  | some m => exact List.indexOf_lt_length.mpr (List.maximum_mem hm)

/-- Helper: every entry of a nonempty list is at most the entry at
nanargmax. -/
theorem nanargmax_getD (l : List ℚ) (hl : l ≠ []) (j : ℕ) (hj : j < l.length) :
    l.getD j 0 ≤ l.getD (nanargmax l) 0 := by
  unfold nanargmax
  match hm : l.maximum with
  | none => exact absurd (List.maximum_eq_none.mp hm) hl
  | some m =>
    have hidx : l.indexOf m < l.length := List.indexOf_lt_length.mpr (List.maximum_mem hm)
    have h1 : l.getD (l.indexOf m) 0 = m := by
      rw [List.getD_eq_getElem l 0 hidx]
      exact List.getElem_indexOf hidx
    have h2 : l.getD j 0 ≤ m := by
      rw [List.getD_eq_getElem l 0 hj]
      exact_mod_cast List.le_maximum_of_mem (List.getElem_mem hj) hm
    rw [h1]
    exact h2

/-- Helper: nanargmax over the image of a function on range n is a valid
index, and the function value there dominates all values below n. -/
theorem nanargmax_spec (f : ℕ → ℚ) (n : ℕ) (hn : 0 < n) :
    nanargmax ((List.range n).map f) < n ∧
    ∀ j, j < n → f j ≤ f (nanargmax ((List.range n).map f)) := by
  have hlen : ((List.range n).map f).length = n := by simp
  have hne : (List.range n).map f ≠ [] := by
    apply List.ne_nil_of_length_pos
    rw [hlen]
    exact hn
  have hk : nanargmax ((List.range n).map f) < n := by
    have h := nanargmax_lt_length _ hne
    rw [hlen] at h
    exact h
  refine ⟨hk, ?_⟩
  intro j hj
  have hj2 : j < ((List.range n).map f).length := by rw [hlen]; exact hj
  have hk2 : nanargmax ((List.range n).map f) < ((List.range n).map f).length := by
    rw [hlen]
    exact hk
  have h1 := nanargmax_getD ((List.range n).map f) hne j hj2
  rw [List.getD_eq_getElem _ 0 hj2, List.getD_eq_getElem _ 0 hk2] at h1
  simpa using h1

/-- C9 counterexample: for the observed blur-score collection [0] (one
uniform image) the tool returns 0.0 through the fewer-than-3-positives
fallback, for every choice of the transcendental maps — no log10, no
histogram and no Otsu split is involved — while 10 raised to any real
selected value is strictly positive, so the returned 0 is not 10 to any
selected bin boundary. -/
theorem suggested_blur_min_not_a_power :
    (∀ log10 exp10 : ℚ → ℚ, suggested_blur_min log10 exp10 [0] = 0) ∧
    (∀ t : ℝ, (0 : ℝ) < (10 : ℝ) ^ t) := by
  constructor
  · intro L E
    rfl
  · intro t
    exact Real.rpow_pos_of_pos (by norm_num) t

/-- C9 amended: when at least 3 positive blur scores are observed, the
recommended threshold is 10** applied to the midpoint of the selected bin
(not to a bin boundary) of the 128-bin histogram over the log10 of the
positive scores, the bin being selected (first index, as np.nanargmax)
because it maximizes the clipped inter-class variance; with fewer than 3
positive scores the tool instead returns their plain mean (0 when there
are none). -/
theorem suggested_blur_min_spec (log10 exp10 : ℚ → ℚ) (values : List ℚ)
    (h3 : ¬ (values.filter (fun x => decide (0 < x))).length < 3) :
    ∃ k, k < 128 ∧
      suggested_blur_min log10 exp10 values
        = exp10 ((otsuEdge ((values.filter (fun x => decide (0 < x))).map log10) 128 k
            + otsuEdge ((values.filter (fun x => decide (0 < x))).map log10) 128 (k + 1)) / 2) ∧
      ∀ j, j < 128 →
        otsuSigma ((values.filter (fun x => decide (0 < x))).map log10) 128 j
          ≤ otsuSigma ((values.filter (fun x => decide (0 < x))).map log10) 128 k := by
  obtain ⟨hk, hmax⟩ := nanargmax_spec
    (otsuSigma ((values.filter (fun x => decide (0 < x))).map log10) 128) 128 (by norm_num)
  refine ⟨nanargmax ((List.range 128).map
    (otsuSigma ((values.filter (fun x => decide (0 < x))).map log10) 128)), hk, ?_, hmax⟩
  unfold suggested_blur_min otsu_threshold
  simp only [if_neg h3, if_pos]
  rfl

/-- Witness for C9 amended at the concrete scores [1, 2, 4] with identity
transcendental maps. -/
theorem suggested_blur_min_spec_witness :
    ∃ k, k < 128 ∧
      suggested_blur_min id id [1, 2, 4]
        = id ((otsuEdge (([1, 2, 4].filter (fun x => decide (0 < x))).map id) 128 k
            + otsuEdge (([1, 2, 4].filter (fun x => decide (0 < x))).map id) 128 (k + 1)) / 2) ∧
      ∀ j, j < 128 →
        otsuSigma (([1, 2, 4].filter (fun x => decide (0 < x))).map id) 128 j
          ≤ otsuSigma (([1, 2, 4].filter (fun x => decide (0 < x))).map id) 128 k :=
  suggested_blur_min_spec id id [1, 2, 4] (by decide)

